import Mathlib

/-!
Verification of the FAISS-backed vector database service
(`vector_db_service.py`).  The service keeps two parallel collections —
a flat L2 index of embeddings and a list of documents — seeds a fixed
medical-knowledge corpus on first run, and persists both collections as
a pair of on-disk artifacts.

The embedding model (`SentenceTransformer.encode`) is an external
collaborator: it is represented throughout as an opaque function
`model : String → List ℚ`.  The FAISS flat index and the pickle/faiss
file formats are external libraries; their behavior at the call sites
used by the service is modelled explicitly below, and each such
definition carries a doc comment saying what was modelled.
-/

namespace VectorDBService

/-- A stored document: the text plus its metadata mapping.  In the
source a document is the dict `{"text": text, "metadata": metadata or {}}`;
the stored metadata value is always a dict (never `None`), which is why
the field has type `List (String × String)` rather than an `Option`. -/
structure Doc where
  text : String
  metadata : List (String × String)
deriving DecidableEq

/-- Default document used only to totalize list lookups in statements. -/
def dfltDoc : Doc := ⟨"", []⟩

/-- In-memory state of the service: the FAISS index contents (an ordered
list of embedding vectors, `index.ntotal = index.length`) and the
parallel `documents` list. -/
structure VectorDB where
  index : List (List ℚ)
  documents : List Doc
deriving DecidableEq

/-- Squared Euclidean (L2) distance, the metric of `faiss.IndexFlatL2`. -/
def sqDist (u v : List ℚ) : ℚ :=
  ((u.zip v).map fun p => (p.1 - p.2) ^ 2).sum

/-- Ordering used by the modelled FAISS search: ascending distance,
ties broken by ascending insertion position. -/
def lexLe (a b : Nat × ℚ) : Prop :=
  a.2 < b.2 ∨ (a.2 = b.2 ∧ a.1 ≤ b.1)

instance : DecidableRel lexLe := fun a b =>
  inferInstanceAs (Decidable (a.2 < b.2 ∨ (a.2 = b.2 ∧ a.1 ≤ b.1)))

instance : IsTotal (Nat × ℚ) lexLe :=
  ⟨fun a b => by
    rcases lt_trichotomy a.2 b.2 with h | h | h
    · exact Or.inl (Or.inl h)
    · rcases Nat.le_total a.1 b.1 with h1 | h1
      · exact Or.inl (Or.inr ⟨h, h1⟩)
      · exact Or.inr (Or.inr ⟨h.symm, h1⟩)
    · exact Or.inr (Or.inl h)⟩

instance : IsTrans (Nat × ℚ) lexLe :=
  ⟨fun a b c hab hbc => by
    rcases hab with h1 | ⟨h1, h1p⟩ <;> rcases hbc with h2 | ⟨h2, h2p⟩
    · exact Or.inl (h1.trans h2)
    · exact Or.inl (h2 ▸ h1)
    · exact Or.inl (h1 ▸ h2)
    · exact Or.inr ⟨h1.trans h2, h1p.trans h2p⟩⟩

/-- The list of `(position, distance)` pairs for every stored embedding,
positions counted from `i`. -/
def scoredFrom (q : List ℚ) : Nat → List (List ℚ) → List (Nat × ℚ)
  | _, [] => []
  | i, v :: rest => (i, sqDist q v) :: scoredFrom q (i + 1) rest

/-- All `(position, distance)` pairs of an index against a query. -/
def scored (index : List (List ℚ)) (q : List ℚ) : List (Nat × ℚ) :=
  scoredFrom q 0 index

/-- Modelled from the spec: the behavior of `faiss.IndexFlatL2.search`
at the service's call site (the FAISS library itself is not part of this
repository).  It performs brute-force exact nearest-neighbor search by
squared L2 distance, returning the `k` nearest `(position, distance)`
pairs sorted ascending by distance with ties broken by ascending
position, and it rejects a non-positive `k` with an error (FAISS throws
on `k ≤ 0`; a negative `k` also fails result-array allocation in the
Python wrapper). -/
def faissSearch (index : List (List ℚ)) (q : List ℚ) (k : Int) :
    Except String (List (Nat × ℚ)) :=
  if k ≤ 0 then Except.error "faiss: k must be positive"
  else Except.ok ((List.insertionSort lexLe (scored index q)).take k.toNat)

/-- `VectorDBService.add_document` (lines 103–115): encode the text,
append the embedding to the FAISS index and append
`{"text": text, "metadata": metadata or {}}` to `documents`. -/
def add_document (model : String → List ℚ) (db : VectorDB)
    (text : String) (metadata : Option (List (String × String))) : VectorDB :=
  { index := db.index ++ [model text],
    documents := db.documents ++ [⟨text, metadata.getD []⟩] }

/-- `VectorDBService.search` (lines 117–146): return `[]` when the index
is empty, otherwise encode the query, run the FAISS search with
`min k ntotal`, and keep `(documents[idx], dist)` for each returned pair
whose index satisfies `idx < len(documents)` (others are skipped). -/
def search (model : String → List ℚ) (db : VectorDB)
    (query : String) (k : Int) : Except String (List (Doc × ℚ)) :=
  if db.index.length = 0 then Except.ok []
  else
    match faissSearch db.index (model query) (min k ((db.index.length : Int))) with
    | Except.error e => Except.error e
    | Except.ok pairs =>
        Except.ok (pairs.filterMap fun p => (db.documents[p.1]?).map fun d => (d, p.2))

/-- `VectorDBService.get_relevant_knowledge` (lines 148–151): run
`search` and drop the score component of every result. -/
def get_relevant_knowledge (model : String → List ℚ) (db : VectorDB)
    (symptoms : String) (k : Int) : Except String (List Doc) :=
  match search model db symptoms k with
  | Except.error e => Except.error e
  | Except.ok results => Except.ok (results.map fun r => r.1)

/-- Modelled from the spec: the observable condition of one persisted
artifact file.  `faiss.write_index` / `pickle.dump` and their readers
are external libraries; a file is either absent, readable as the value
that was fully written, or corrupt (truncated / partially written /
tampered), in which case the corresponding reader raises. -/
inductive FileState (α : Type) where
  | absent
  | corrupt
  | good (a : α)
deriving DecidableEq

/-- The two co-located persisted artifacts: `faiss.index` holding the
ordered embeddings and `data.pkl` holding the ordered documents. -/
structure Disk where
  indexFile : FileState (List (List ℚ))
  dataFile : FileState (List Doc)
deriving DecidableEq

/-- Modelled from the spec: the point at which a failure can interrupt
`save`.  Line 156 writes the index artifact directly at its final path:
its open may itself raise (nothing touched) or the write may fail
midway (index artifact left partially written).  Line 157 then opens
the data artifact with mode `wb`: that open may raise before truncating
(prior data artifact left intact beside the already-replaced index
artifact), or the pickle streamed by line 158 may fail after truncation
(data artifact left partially written). -/
inductive SaveFault where
  | beforeIndexWrite
  | duringIndexWrite
  | beforeDataWrite
  | duringDataWrite
deriving DecidableEq

/-- `VectorDBService.save` (lines 153–161): write both artifacts
directly at their final paths; any exception is caught and logged, so
the in-memory state is always returned unchanged.  `fault = none` is
the fault-free run; `some f` injects a failure at the given write. -/
def save (db : VectorDB) (disk : Disk) (fault : Option SaveFault) :
    VectorDB × Disk :=
  match fault with
  | some SaveFault.beforeIndexWrite => (db, disk)
  | some SaveFault.duringIndexWrite =>
      (db, { disk with indexFile := FileState.corrupt })
  | some SaveFault.beforeDataWrite =>
      (db, { indexFile := FileState.good db.index, dataFile := disk.dataFile })
  | some SaveFault.duringDataWrite =>
      (db, { indexFile := FileState.good db.index, dataFile := FileState.corrupt })
  | none =>
      (db, { indexFile := FileState.good db.index,
             dataFile := FileState.good db.documents })

/-- `VectorDBService.load` (lines 163–173): read both artifacts; on any
exception (missing file, corrupt index, corrupt pickle) fall back to a
fresh empty index and an empty document list. -/
def load (disk : Disk) : VectorDB :=
  match disk.indexFile, disk.dataFile with
  | FileState.good idx, FileState.good docs => ⟨idx, docs⟩
  | _, _ => ⟨[], []⟩

/-- The hardcoded starter corpus (lines 45–96): ten
`(text, category, urgency)` entries. -/
def medical_knowledge : List (String × String × String) :=
  [("Fever above 103°F (39.4°C) in adults or 100.4°F in infants under 3 months requires immediate medical attention",
    "fever", "HIGH"),
   ("Chest pain with shortness of breath, sweating, or pain radiating to arm/jaw may indicate heart attack - seek emergency care",
    "cardiac", "CRITICAL"),
   ("Severe headache with confusion, vision changes, or difficulty speaking may indicate stroke - call emergency services",
    "neurological", "CRITICAL"),
   ("Difficulty breathing, wheezing, or inability to speak in full sentences requires urgent evaluation",
    "respiratory", "HIGH"),
   ("Severe abdominal pain with fever, vomiting, or inability to pass gas may indicate serious condition",
    "gastrointestinal", "HIGH"),
   ("Common cold symptoms: runny nose, sore throat, mild cough - usually self-limiting, rest and fluids recommended",
    "respiratory", "LOW"),
   ("Mild headache without other symptoms can be treated with over-the-counter pain relievers and rest",
    "pain", "MINIMAL"),
   ("Allergic reaction with swelling of face, tongue, or difficulty breathing is life-threatening - use EpiPen if available and call 911",
    "allergic", "CRITICAL"),
   ("Dehydration symptoms: extreme thirst, dark urine, dizziness - increase fluid intake, seek care if severe",
    "general", "MODERATE"),
   ("Persistent vomiting or diarrhea for more than 24 hours, especially with blood, requires medical evaluation",
    "gastrointestinal", "MODERATE")]

/-- The metadata dict passed for a starter entry: in the source the
whole knowledge dict (text, category, urgency) is passed as metadata. -/
def docOf (e : String × String × String) : List (String × String) :=
  [("text", e.1), ("category", e.2.1), ("urgency", e.2.2)]

/-- The documents the bootstrap stores, in listed order. -/
def starterDocuments : List Doc :=
  medical_knowledge.map fun e => ⟨e.1, docOf e⟩

/-- `VectorDBService._initialize_medical_knowledge` (lines 43–101)
without its final `save` call: `add_document(doc["text"], doc)` for each
starter entry in listed order. -/
def initialize_medical_knowledge (model : String → List ℚ) (db : VectorDB) :
    VectorDB :=
  medical_knowledge.foldl (fun s e => add_document model s e.1 (some (docOf e))) db

/-- `VectorDBService.__init__` (lines 34–39): if the index artifact file
exists, `load`; otherwise start from a fresh empty index and empty
document list, seed the starter corpus, and `save` (modelled on the
fault-free save path).  Returns the resulting in-memory state and the
resulting disk. -/
def initService (model : String → List ℚ) (disk : Disk) : VectorDB × Disk :=
  match disk.indexFile with
  | FileState.absent =>
      let db := initialize_medical_knowledge model ⟨[], []⟩
      (db, (save db disk none).2)
  | _ => (load disk, disk)

/-- The two persisted artifacts, when both readable, hold the same
number of entries. -/
def diskOk (disk : Disk) : Prop :=
  ∀ (idx : List (List ℚ)) (docs : List Doc),
    disk.indexFile = FileState.good idx → disk.dataFile = FileState.good docs →
      idx.length = docs.length

/-- The completed public operations as a transition system on the pair
(in-memory corpus, disk): construction over a fresh location (seeding
the starter corpus and saving it), `add_document`, `save` — whose
exceptions are all caught at line 160, so every save run, fault-free or
not, is a completed operation — and `load`.  The `allowed` parameter
selects which save outcomes can occur during the run. -/
inductive ReachableSys (model : String → List ℚ)
    (allowed : Option SaveFault → Prop) : VectorDB × Disk → Prop where
  | boot : ReachableSys model allowed
      (initService model ⟨FileState.absent, FileState.absent⟩)
  | add (s : VectorDB × Disk) (t : String)
      (md : Option (List (String × String))) :
      ReachableSys model allowed s →
      ReachableSys model allowed (add_document model s.1 t md, s.2)
  | saveOp (s : VectorDB × Disk) (fault : Option SaveFault) :
      allowed fault → ReachableSys model allowed s →
      ReachableSys model allowed (save s.1 s.2 fault)
  | loadOp (s : VectorDB × Disk) :
      ReachableSys model allowed s →
      ReachableSys model allowed (load s.2, s.2)

/-! ### Concrete fixtures used by witnesses and counterexamples -/

/-- A concrete stand-in for the opaque embedding model: embeds a text
as the one-component vector holding its length. -/
def wmodel : String → List ℚ := fun s => [(s.length : ℚ)]

/-- A one-document corpus built by a single `add_document`. -/
def wdb1 : VectorDB := add_document wmodel ⟨[], []⟩ "doc" none

/-- A two-document, in-sync corpus built by two `add_document` calls. -/
def wdb2 : VectorDB :=
  add_document wmodel (add_document wmodel ⟨[], []⟩ "a" none) "abc" none

/-- An out-of-sync state: two embeddings in the index but only one
stored document (the state the append-atomicity invariant forbids). -/
def wdbBroken : VectorDB := ⟨[[0], [1]], [⟨"d0", []⟩]⟩

/-- A model sending every text to the vector `[1]`, so that in
`wdbBroken` the unassigned position 1 is the nearest neighbor. -/
def wmodelOne : String → List ℚ := fun _ => [1]

/-- A disk whose artifacts are both present and readable. -/
def wdiskGood : Disk := ⟨FileState.good [[5]], FileState.good [⟨"old", []⟩]⟩

/-- A disk whose index artifact exists but is corrupt. -/
def wdiskCorrupt : Disk := ⟨FileState.corrupt, FileState.corrupt⟩

end VectorDBService

/-! ## Theorems -/

namespace VectorDBService

/-! ### Helper lemmas about the scored list -/

theorem length_scoredFrom (q : List ℚ) (i : Nat) (l : List (List ℚ)) :
    (scoredFrom q i l).length = l.length := by
  induction l generalizing i with
  | nil => rfl
  | cons v rest ih => simp [scoredFrom, ih]

theorem mem_scoredFrom {q : List ℚ} {p : Nat × ℚ} :
    ∀ {i : Nat} {l : List (List ℚ)}, p ∈ scoredFrom q i l →
      ∃ j, ∃ h : j < l.length, p = (i + j, sqDist q (l.get ⟨j, h⟩))
  | i, [], h => absurd h (List.not_mem_nil p)
  | i, v :: rest, h => by
    rcases List.mem_cons.1 h with h0 | h0
    · exact ⟨0, Nat.succ_pos _, by simpa using h0⟩
    · obtain ⟨j, hj, hp⟩ := mem_scoredFrom h0
      exact ⟨j + 1, Nat.succ_lt_succ hj, by simpa [Nat.add_assoc, Nat.add_comm 1 j] using hp⟩

theorem fst_lt_of_mem_scoredFrom {q : List ℚ} {p : Nat × ℚ} {i : Nat}
    {l : List (List ℚ)} (h : p ∈ scoredFrom q i l) : p.1 < i + l.length := by
  obtain ⟨j, hj, hp⟩ := mem_scoredFrom h
  subst hp
  simpa using Nat.add_lt_add_left hj i

theorem le_fst_of_mem_scoredFrom {q : List ℚ} {p : Nat × ℚ} {i : Nat}
    {l : List (List ℚ)} (h : p ∈ scoredFrom q i l) : i ≤ p.1 := by
  obtain ⟨j, hj, hp⟩ := mem_scoredFrom h
  subst hp
  exact Nat.le_add_right i j

theorem pairwise_fst_lt_scoredFrom (q : List ℚ) :
    ∀ (i : Nat) (l : List (List ℚ)),
      (scoredFrom q i l).Pairwise fun a b => a.1 < b.1
  | _, [] => List.Pairwise.nil
  | i, v :: rest => by
    refine List.Pairwise.cons (fun b hb => ?_) (pairwise_fst_lt_scoredFrom q (i + 1) rest)
    exact Nat.lt_of_lt_of_le (Nat.lt_succ_self i) (le_fst_of_mem_scoredFrom hb)

theorem nodup_fst_scored (index : List (List ℚ)) (q : List ℚ) :
    ((scored index q).map Prod.fst).Nodup := by
  refine List.pairwise_map.2 ?_
  exact (pairwise_fst_lt_scoredFrom q 0 index).imp fun h => Nat.ne_of_lt h

/-! ### Helper lemmas about result resolution -/

theorem filterMap_resolve (docs : List Doc) :
    ∀ ps : List (Nat × ℚ), (∀ p ∈ ps, p.1 < docs.length) →
      (ps.filterMap fun p => (docs[p.1]?).map fun d => (d, p.2)) =
        ps.map fun p => (docs.getD p.1 dfltDoc, p.2)
  | [], _ => rfl
  | a :: t, h => by
    have ha : a.1 < docs.length := h a (List.mem_cons_self a t)
    have ih := filterMap_resolve docs t fun p hp => h p (List.mem_cons_of_mem a hp)
    simp [List.filterMap_cons, List.getD_eq_getElem?_getD,
      List.getElem?_eq_getElem ha, ih]

theorem filterMap_skip (docs : List Doc) :
    ∀ ps : List (Nat × ℚ),
      (ps.filterMap fun p => (docs[p.1]?).map fun d => (d, p.2)) =
        (ps.filter fun p => p.1 < docs.length).map
          fun p => (docs.getD p.1 dfltDoc, p.2)
  | [] => rfl
  | a :: t => by
    by_cases ha : a.1 < docs.length
    · simp [List.filterMap_cons, List.getD_eq_getElem?_getD,
        List.getElem?_eq_getElem ha, List.filter_cons, ha, filterMap_skip docs t]
    · have hnone : docs[a.1]? = none := List.getElem?_eq_none (Nat.le_of_not_lt ha)
      simp [List.filterMap_cons, hnone, List.filter_cons, ha, filterMap_skip docs t]

theorem mem_scored {index : List (List ℚ)} {q : List ℚ} {p : Nat × ℚ}
    (h : p ∈ scored index q) :
    ∃ hlt : p.1 < index.length, p.2 = sqDist q (index.get ⟨p.1, hlt⟩) := by
  obtain ⟨j, hj, hp⟩ := mem_scoredFrom h
  rw [Nat.zero_add] at hp
  subst hp
  exact ⟨hj, rfl⟩

theorem length_scored (index : List (List ℚ)) (q : List ℚ) :
    (scored index q).length = index.length :=
  length_scoredFrom q 0 index

/-! ### Claim theorems -/

/-- C10: calling `add_document` with the metadata argument omitted or
`None` stores the document with an empty mapping as its metadata
(`metadata or {}` in the source); the stored metadata field is always a
mapping, never `None`, which the `Doc` type mirrors by making
`metadata` non-optional. -/
theorem add_document_default_metadata (model : String → List ℚ)
    (db : VectorDB) (text : String) :
    ∃ d : Doc, (add_document model db text none).documents = db.documents ++ [d] ∧
      d.text = text ∧ d.metadata = [] :=
  ⟨⟨text, []⟩, rfl, rfl, rfl⟩

/-- C8: `get_relevant_knowledge` returns exactly the documents `search`
returns, in the same order, with the distance components dropped (and
propagates `search`'s error unchanged when there is one). -/
theorem get_relevant_knowledge_drops_scores (model : String → List ℚ)
    (db : VectorDB) (symptoms : String) (k : Int) :
    get_relevant_knowledge model db symptoms k =
      Except.map (List.map Prod.fst) (search model db symptoms k) := by
  unfold get_relevant_knowledge
  cases search model db symptoms k <;> rfl

/-- C4: a fault-free `save` followed by `load` reconstructs the
identical ordered corpus — same embeddings and same documents at the
same positions — and both `search` and `get_relevant_knowledge` give
identical results before and after the round-trip. -/
theorem save_load_roundtrip (model : String → List ℚ) (db : VectorDB)
    (disk : Disk) (q : String) (k : Int) :
    load (save db disk none).2 = db ∧
    search model (load (save db disk none).2) q k = search model db q k ∧
    get_relevant_knowledge model (load (save db disk none).2) q k =
      get_relevant_knowledge model db q k := by
  have h : load (save db disk none).2 = db := rfl
  exact ⟨h, by rw [h], by rw [h]⟩

/-- C5 counterexample: `save` does not write to a temporary location —
starting from a disk whose data artifact is the readable prior value, a
failure during the data write (line 157 opens the final path with mode
`wb`, truncating it in place) leaves the data artifact corrupt: the
prior artifact is destroyed and a readable-but-inconsistent file is
left at the configured location, refuting the claim. -/
theorem save_not_atomic_cex :
    wdiskGood.dataFile = FileState.good [⟨"old", []⟩] ∧
    (save wdb1 wdiskGood (some SaveFault.duringDataWrite)).2.dataFile =
      (FileState.corrupt : FileState (List Doc)) :=
  ⟨rfl, rfl⟩

/-- C5 (amended): `save` writes both artifacts directly at their final
configured paths with no temporary file; any exception is caught and
logged so the in-memory state is returned unchanged, but a failure
during the index write corrupts the index artifact in place, a failure
opening the data file leaves the prior data artifact beside the
already-replaced index artifact, and a failure during the data write
corrupts the data artifact in place (after the index artifact has
already been replaced). -/
theorem save_direct_write (db : VectorDB) (disk : Disk) :
    (∀ fault, (save db disk fault).1 = db) ∧
    (save db disk none).2 =
      ⟨FileState.good db.index, FileState.good db.documents⟩ ∧
    (save db disk (some SaveFault.beforeIndexWrite)).2 = disk ∧
    (save db disk (some SaveFault.duringIndexWrite)).2 =
      ⟨FileState.corrupt, disk.dataFile⟩ ∧
    (save db disk (some SaveFault.beforeDataWrite)).2 =
      ⟨FileState.good db.index, disk.dataFile⟩ ∧
    (save db disk (some SaveFault.duringDataWrite)).2 =
      ⟨FileState.good db.index, FileState.corrupt⟩ := by
  refine ⟨fun fault => ?_, rfl, rfl, rfl, rfl, rfl⟩
  cases fault with
  | none => rfl
  | some f => cases f <;> rfl

/-- C3 counterexample: searching a non-empty corpus with `k = -1` does
not return an empty sequence — the code's only guard is for the empty
corpus, so `min(k, ntotal) = -1` is forwarded to the FAISS search,
which rejects a non-positive `k`, refuting the "k ≤ 0 returns an empty
sequence, never an error" half of the claim. -/
theorem search_nonpositive_k_cex :
    wdb1.index.length ≠ 0 ∧
    search wmodel wdb1 "q" (-1) = Except.error "faiss: k must be positive" :=
  ⟨by decide, rfl⟩

/-- C3 (amended): searching an empty corpus returns an empty sequence
without error for every `k`; but `k ≤ 0` on a non-empty corpus is
forwarded to the FAISS index search, which fails with an error — the
code has no `k ≤ 0` guard of its own. -/
theorem search_empty_or_nonpositive (model : String → List ℚ)
    (db : VectorDB) (q : String) (k : Int) :
    (db.index.length = 0 → search model db q k = Except.ok []) ∧
    (db.index.length ≠ 0 → k ≤ 0 →
      ∃ e, search model db q k = Except.error e) := by
  constructor
  · intro h
    simp [search, h]
  · intro hn hk
    refine ⟨"faiss: k must be positive", ?_⟩
    have hmin : min k ((db.index.length : Int)) ≤ 0 :=
      le_trans (min_le_left _ _) hk
    have hf : faissSearch db.index (model q) (min k ((db.index.length : Int))) =
        Except.error "faiss: k must be positive" := by
      unfold faissSearch
      rw [if_pos hmin]
    unfold search
    rw [if_neg hn, hf]

/-- C3 witness: both branches of the amended statement at concrete
inputs — the empty corpus with `k = 5` and a one-document corpus with
`k = -2`. -/
theorem search_empty_or_nonpositive_witness :
    ((⟨[], []⟩ : VectorDB).index.length = 0 ∧
      search wmodel ⟨[], []⟩ "q" 5 = Except.ok []) ∧
    (wdb1.index.length ≠ 0 ∧ (-2 : Int) ≤ 0 ∧
      ∃ e, search wmodel wdb1 "q" (-2) = Except.error e) :=
  ⟨⟨rfl, (search_empty_or_nonpositive wmodel ⟨[], []⟩ "q" 5).1 rfl⟩,
   ⟨by decide, by decide,
    (search_empty_or_nonpositive wmodel wdb1 "q" (-2)).2 (by decide) (by decide)⟩⟩

/-- C6: when the persisted artifacts cannot both be read back (missing
files, a corrupt index artifact, or a corrupt data artifact), `load`
does not propagate the error past the load boundary — the corpus falls
back to the empty state — and the bootstrap applied to that fallen-back
corpus restores exactly the ten starter documents with their starter
embeddings. -/
theorem load_failure_fallback (model : String → List ℚ) (disk : Disk)
    (h : ∀ (idx : List (List ℚ)) (ds : List Doc),
      disk ≠ ⟨FileState.good idx, FileState.good ds⟩) :
    load disk = ⟨[], []⟩ ∧
    (initialize_medical_knowledge model (load disk)).documents =
      starterDocuments ∧
    (initialize_medical_knowledge model (load disk)).index =
      (medical_knowledge.map fun e => model e.1) := by
  have hl : load disk = ⟨[], []⟩ := by
    obtain ⟨fi, fd⟩ := disk
    cases fi with
    | absent => cases fd <;> rfl
    | corrupt => cases fd <;> rfl
    | good idx =>
      cases fd with
      | absent => rfl
      | corrupt => rfl
      | good ds => exact absurd rfl (h idx ds)
  rw [hl]
  exact ⟨rfl, rfl, rfl⟩

/-- C6 witness: a disk whose two artifacts are both corrupt falls back
to the empty corpus, and the bootstrap then restores the starter set. -/
theorem load_failure_fallback_witness :
    (∀ (idx : List (List ℚ)) (ds : List Doc),
      wdiskCorrupt ≠ ⟨FileState.good idx, FileState.good ds⟩) ∧
    (load wdiskCorrupt = ⟨[], []⟩ ∧
     (initialize_medical_knowledge wmodel (load wdiskCorrupt)).documents =
       starterDocuments ∧
     (initialize_medical_knowledge wmodel (load wdiskCorrupt)).index =
       (medical_knowledge.map fun e => wmodel e.1)) :=
  ⟨fun idx ds hcontra => by simp [wdiskCorrupt] at hcontra,
   load_failure_fallback wmodel wdiskCorrupt
     (fun idx ds hcontra => by simp [wdiskCorrupt] at hcontra)⟩

/-- C9: seeding happens exactly in the construction branch where no
index artifact exists (the corpus there is the freshly created empty
one): it inserts the ten starter documents via `add_document` in their
listed order at positions 0 through 9, then triggers `save`, writing
both artifacts; construction with an existing index artifact loads
instead and never seeds. -/
theorem bootstrap_seeds_starter (model : String → List ℚ) :
    (initService model ⟨FileState.absent, FileState.absent⟩).1.documents =
      starterDocuments ∧
    starterDocuments.length = 10 ∧
    (initService model ⟨FileState.absent, FileState.absent⟩).1.index =
      (medical_knowledge.map fun e => model e.1) ∧
    (initService model ⟨FileState.absent, FileState.absent⟩).2 =
      ⟨FileState.good (medical_knowledge.map fun e => model e.1),
        FileState.good starterDocuments⟩ ∧
    (∀ disk : Disk, disk.indexFile ≠ FileState.absent →
      initService model disk = (load disk, disk)) := by
  refine ⟨rfl, rfl, rfl, rfl, fun disk h => ?_⟩
  obtain ⟨fi, fd⟩ := disk
  cases fi with
  | absent => exact absurd rfl h
  | corrupt => rfl
  | good idx => rfl

/-- C9 witness: constructing over a disk whose index artifact exists
loads the persisted corpus and does not seed. -/
theorem bootstrap_seeds_starter_witness :
    wdiskGood.indexFile ≠ FileState.absent ∧
    initService wmodel wdiskGood = (load wdiskGood, wdiskGood) :=
  ⟨by decide,
   (bootstrap_seeds_starter wmodel).2.2.2.2 wdiskGood (by decide)⟩

/-- C1 counterexample: a run of completed public operations that ends
out of sync.  Construction seeds and saves the ten starter documents;
one `add_document` grows the corpus to eleven entries; a `save` whose
data-file open raises before truncating (the exception is caught at
line 160, so the operation completes) replaces the index artifact but
leaves the old ten-document data artifact readable; the next completed
`load` (which has no length check) then reads eleven embeddings
alongside ten documents, refuting the claimed invariant. -/
theorem reachable_sync_cex :
    ∃ s : VectorDB × Disk, ReachableSys wmodel (fun _ => True) s ∧
      s.1.index.length ≠ s.1.documents.length := by
  refine ⟨_, ReachableSys.loadOp _ (ReachableSys.saveOp _
    (some SaveFault.beforeDataWrite) trivial
    (ReachableSys.add _ "a" none ReachableSys.boot)), ?_⟩
  decide

/-- C1 (amended): the equality `|FlatIndex| = |DocumentStore|` holds
after every completed public operation — and the two artifacts, when
both readable, always hold equally many entries — provided no save run
fails between writing the index artifact and truncating the data
artifact; a save suffering exactly that fault (caught and logged, lines
160–161) leaves readable mismatched artifacts whose subsequent
completed load yields an out-of-sync corpus. -/
theorem reachable_sync_no_partial_save (model : String → List ℚ)
    (allowed : Option SaveFault → Prop)
    (hallowed : ∀ f, allowed f → f ≠ some SaveFault.beforeDataWrite)
    (s : VectorDB × Disk) (h : ReachableSys model allowed s) :
    s.1.index.length = s.1.documents.length ∧ diskOk s.2 := by
  induction h with
  | boot =>
    refine ⟨rfl, fun idx docs h1 h2 => ?_⟩
    injection h1 with h1
    injection h2 with h2
    subst h1
    subst h2
    rfl
  | add s t md hs ih => exact ⟨by simp [add_document, ih.1], ih.2⟩
  | saveOp s fault hf hs ih =>
    obtain ⟨ih1, ih2⟩ := ih
    cases fault with
    | none =>
      refine ⟨ih1, fun idx docs h1 h2 => ?_⟩
      injection h1 with h1
      injection h2 with h2
      subst h1
      subst h2
      exact ih1
    | some f =>
      cases f with
      | beforeIndexWrite => exact ⟨ih1, ih2⟩
      | duringIndexWrite =>
        exact ⟨ih1, fun idx docs h1 h2 => FileState.noConfusion h1⟩
      | beforeDataWrite => exact absurd rfl (hallowed _ hf)
      | duringDataWrite =>
        exact ⟨ih1, fun idx docs h1 h2 => FileState.noConfusion h2⟩
  | loadOp s hs ih =>
    obtain ⟨ih1, ih2⟩ := ih
    refine ⟨?_, ih2⟩
    obtain ⟨db, disk⟩ := s
    obtain ⟨fi, fd⟩ := disk
    cases fi with
    | absent => cases fd <;> rfl
    | corrupt => cases fd <;> rfl
    | good idx =>
      cases fd with
      | absent => rfl
      | corrupt => rfl
      | good docs => exact ih2 idx docs rfl rfl

/-- C7 counterexample: on a state where the index holds two embeddings
but only one document is stored, a search that ranks the unassigned
position 1 first completes successfully and silently drops that
position instead of failing with OutOfRange, refuting the claim. -/
theorem search_skips_unassigned_cex :
    wdbBroken.index.length = 2 ∧ wdbBroken.documents.length = 1 ∧
    search wmodelOne wdbBroken "q" 2 = Except.ok [(⟨"d0", []⟩, 1)] := by
  refine ⟨rfl, rfl, ?_⟩
  norm_num [search, faissSearch, scored, scoredFrom, sqDist, lexLe,
    wdbBroken, wmodelOne]
  rfl

/-- C7 (amended): when `search` resolves the FAISS-returned positions,
a position not yet assigned in the document store is silently skipped
(filtered out, no OutOfRange error reaches any caller); every in-range
position is resolved to its document and returned in the
FAISS-provided order. -/
theorem search_skips_unassigned (model : String → List ℚ) (db : VectorDB)
    (q : String) (k : Int) (pairs : List (Nat × ℚ))
    (hn : db.index.length ≠ 0)
    (hf : faissSearch db.index (model q) (min k ((db.index.length : Int))) =
      Except.ok pairs) :
    search model db q k =
      Except.ok ((pairs.filter fun p => p.1 < db.documents.length).map
        fun p => (db.documents.getD p.1 dfltDoc, p.2)) := by
  unfold search
  rw [if_neg hn, hf]
  exact congrArg Except.ok (filterMap_skip db.documents pairs)

/-- C7 witness: the amended statement at the concrete two-embedding,
one-document state. -/
theorem search_skips_unassigned_witness :
    wdbBroken.index.length ≠ 0 ∧
    faissSearch wdbBroken.index (wmodelOne "q")
        (min 2 ((wdbBroken.index.length : Int))) =
      Except.ok [(1, 0), (0, 1)] ∧
    search wmodelOne wdbBroken "q" 2 =
      Except.ok ((([(1, (0 : ℚ)), (0, 1)].filter
          fun p => p.1 < wdbBroken.documents.length).map
        fun p => (wdbBroken.documents.getD p.1 dfltDoc, p.2))) := by
  have hf : faissSearch wdbBroken.index (wmodelOne "q")
      (min 2 ((wdbBroken.index.length : Int))) = Except.ok [(1, 0), (0, 1)] := by
    norm_num [faissSearch, scored, scoredFrom, sqDist, lexLe, wdbBroken, wmodelOne]
  exact ⟨by decide, hf,
    search_skips_unassigned wmodelOne wdbBroken "q" 2 [(1, 0), (0, 1)]
      (by decide) hf⟩

/-- C2: on an in-sync corpus, `search` with `k > 0` succeeds and
returns exactly `min k ntotal` results; the underlying positions are
strictly ordered — ascending by squared Euclidean distance from the
query embedding, ties broken by ascending insertion position — and
each result pairs the document stored at a position with that
position's true squared distance to the query embedding. -/
theorem search_sorted_results (model : String → List ℚ) (db : VectorDB)
    (q : String) (k : Int)
    (hsync : db.index.length = db.documents.length) (hk : 0 < k) :
    ∃ ps : List (Nat × ℚ),
      search model db q k =
        Except.ok (ps.map fun p => (db.documents.getD p.1 dfltDoc, p.2)) ∧
      ps.length = min k.toNat db.index.length ∧
      ps.Pairwise (fun a b => a.2 < b.2 ∨ (a.2 = b.2 ∧ a.1 < b.1)) ∧
      ∀ p ∈ ps, ∃ h : p.1 < db.index.length,
        p.2 = sqDist (model q) (db.index.get ⟨p.1, h⟩) := by
  by_cases hn : db.index.length = 0
  · refine ⟨[], by simp [search, hn], by simp [hn], List.Pairwise.nil, by simp⟩
  · set srt := List.insertionSort lexLe (scored db.index (model q)) with hsrt
    set ps := srt.take (min k ((db.index.length : Int))).toNat with hps
    have hnpos : (0 : Int) < (db.index.length : Int) :=
      Int.ofNat_pos.mpr (Nat.pos_of_ne_zero hn)
    have h0 : 0 < min k ((db.index.length : Int)) := lt_min hk hnpos
    have hfa : faissSearch db.index (model q) (min k ((db.index.length : Int))) =
        Except.ok ps := by
      unfold faissSearch
      rw [if_neg (not_le.2 h0)]
    have hmemsc : ∀ p ∈ ps, p ∈ scored db.index (model q) := fun p hp =>
      (List.perm_insertionSort lexLe _).subset (List.mem_of_mem_take hp)
    have hbound : ∀ p ∈ ps, p.1 < db.index.length := fun p hp =>
      (mem_scored (hmemsc p hp)).1
    refine ⟨ps, ?_, ?_, ?_, fun p hp => mem_scored (hmemsc p hp)⟩
    · unfold search
      rw [if_neg hn, hfa]
      exact congrArg Except.ok
        (filterMap_resolve db.documents ps fun p hp => hsync ▸ hbound p hp)
    · rw [hps, List.length_take, hsrt, List.length_insertionSort, length_scored]
      rcases le_total k ((db.index.length : Int)) with h | h
      · rw [min_eq_left h]
      · have h2 : db.index.length ≤ k.toNat := by omega
        rw [min_eq_right h, Int.toNat_ofNat, min_self, min_eq_right h2]
    · have hsorted : ps.Pairwise lexLe :=
        List.Pairwise.sublist (List.take_sublist _ _)
          (List.sorted_insertionSort lexLe _)
      have hndsc : ((scored db.index (model q)).map Prod.fst).Nodup :=
        nodup_fst_scored db.index (model q)
      have hndsrt : (srt.map Prod.fst).Nodup :=
        (((List.perm_insertionSort lexLe _).map Prod.fst).nodup_iff).2 hndsc
      have hndps : (ps.map Prod.fst).Nodup := by
        rw [hps, List.map_take]
        exact (List.take_sublist _ _).nodup hndsrt
      have hne : ps.Pairwise fun a b => a.1 ≠ b.1 := List.pairwise_map.1 hndps
      refine (hsorted.and hne).imp ?_
      rintro a b ⟨hle | ⟨heq, hlep⟩, hab⟩
      · exact Or.inl hle
      · exact Or.inr ⟨heq, lt_of_le_of_ne hlep hab⟩

/-- C2 witness: the two-document in-sync corpus searched with `k = 1`. -/
theorem search_sorted_results_witness :
    wdb2.index.length = wdb2.documents.length ∧ (0 : Int) < 1 ∧
    (∃ ps : List (Nat × ℚ),
      search wmodel wdb2 "query" 1 =
        Except.ok (ps.map fun p => (wdb2.documents.getD p.1 dfltDoc, p.2)) ∧
      ps.length = min (Int.toNat 1) wdb2.index.length ∧
      ps.Pairwise (fun a b => a.2 < b.2 ∨ (a.2 = b.2 ∧ a.1 < b.1)) ∧
      ∀ p ∈ ps, ∃ h : p.1 < wdb2.index.length,
        p.2 = sqDist (wmodel "query") (wdb2.index.get ⟨p.1, h⟩)) :=
  ⟨rfl, by decide, search_sorted_results wmodel wdb2 "query" 1 rfl (by decide)⟩

/-- C1 witness: a run allowing only fault-free saves — here the freshly
constructed, seeded-and-saved system state — satisfies both the
in-memory equality and the artifact-pair consistency. -/
theorem reachable_sync_no_partial_save_witness :
    (∀ f : Option SaveFault, f = none →
      f ≠ some SaveFault.beforeDataWrite) ∧
    ((initService wmodel ⟨FileState.absent, FileState.absent⟩).1.index.length =
      (initService wmodel ⟨FileState.absent, FileState.absent⟩).1.documents.length ∧
     diskOk (initService wmodel ⟨FileState.absent, FileState.absent⟩).2) :=
  ⟨fun f hf => by simp [hf],
   reachable_sync_no_partial_save wmodel (fun f => f = none)
     (fun f hf => by simp [hf]) _ ReachableSys.boot⟩

end VectorDBService
